import Mathlib

/-!
Verification of the motor-data visualization pipeline (src/app.py).

The pipeline loads two CSV tables (raw data and shaping data), extracts a
global time offset from the shaping table, validates that the non-time
column labels of the two tables agree, applies a per-column linear
transform, and renders a configurable number of line charts.

Shallow embedding conventions:
  * a pandas DataFrame becomes `Table`: an ordered list of column names
    plus an ordered list of rows, each row an ordered list of cell values;
  * a cell (`Val`) is either a parsed number (modelled as a rational) or a
    raw string; arithmetic that pandas rejects with a TypeError (any
    string operand) is modelled as failure;
  * Python exceptions become the `PyError` type; only ValueError values
    are caught by the try/except in main, the others propagate;
  * in-place mutation of the caller's DataFrame is modelled by returning
    the post-call state of the mutated table alongside the result.
-/

namespace MotorApp

/-- A cell value loaded from a CSV table: a parsed number (rational) or a
raw string kept verbatim. -/
inductive Val where
  | num (q : Rat)
  | str (s : String)
deriving DecidableEq

/-- Exceptions raised by the pipeline.  `indexError`, `keyError` and
`typeError` are not ValueError instances in Python, so the `except
ValueError` handler in main does not catch them. -/
inductive PyError where
  | indexError
  | keyError
  | typeError
  | valueErrorFloat (v : Val)
  | valueErrorRawExtra (labels : List String)
  | valueErrorShapingExtra (labels : List String)
deriving DecidableEq

deriving instance DecidableEq for Except

/-- True exactly for the errors that are ValueError instances in Python,
hence caught by the `except ValueError` clause in main. -/
def PyError.isValueError : PyError → Bool
  | .valueErrorFloat _ => true
  | .valueErrorRawExtra _ => true
  | .valueErrorShapingExtra _ => true
  | _ => false

/-- True exactly for the two label-mismatch errors raised by
`validate_data_labels`. -/
def PyError.isLabelMismatch : PyError → Bool
  | .valueErrorRawExtra _ => true
  | .valueErrorShapingExtra _ => true
  | _ => false

/-- Reads a decimal digit string as a natural number; `none` on any
non-digit.  The empty list reads as 0 (callers check emptiness). -/
def natOfDigits (cs : List Char) : Option Nat :=
  cs.foldl
    (fun acc c =>
      acc.bind (fun n => if c.isDigit then some (10 * n + (c.toNat - 48)) else none))
    (some 0)

/-- Leading and trailing whitespace removed, as Python float() and the
blank-line check do. -/
def trimChars (cs : List Char) : List Char :=
  ((cs.dropWhile Char.isWhitespace).reverse.dropWhile Char.isWhitespace).reverse

/-- Splits a character list at every occurrence of `sep`; always returns
at least one (possibly empty) group, like String.splitOn. -/
def splitOnChar (sep : Char) : List Char → List (List Char)
  | [] => [[]]
  | c :: cs =>
    if c = sep then [] :: splitOnChar sep cs
    else
      match splitOnChar sep cs with
      | [] => [[c]]
      | g :: gs => (c :: g) :: gs

/-- String-level wrapper around `splitOnChar`. -/
def splitStr (sep : Char) (s : String) : List String :=
  (splitOnChar sep s.data).map String.mk

/-- Parses an unsigned decimal literal (digits with at most one point),
the fragment of Python float() syntax the pipeline's inputs exercise. -/
def parseUnsignedFloat (cs : List Char) : Option Rat :=
  let intPart := cs.takeWhile (fun c => c ≠ '.')
  match cs.dropWhile (fun c => c ≠ '.') with
  | [] => if intPart.isEmpty then none else (natOfDigits intPart).map (fun n => (n : Rat))
  | _ :: frac =>
      if intPart.isEmpty && frac.isEmpty then none
      else
        (natOfDigits intPart).bind (fun ip =>
          (natOfDigits frac).map (fun fp =>
            (ip : Rat) + (fp : Rat) / ((10 : Rat) ^ frac.length)))

/-- Models Python `float(s)` on the decimal literals relevant here:
optional surrounding whitespace, optional sign, digits with at most one
decimal point.  Anything else (e.g. "abc", "_") fails. -/
def parseFloatStr (s : String) : Option Rat :=
  match trimChars s.data with
  | [] => none
  | '-' :: rest => (parseUnsignedFloat rest).map (fun q => -q)
  | '+' :: rest => parseUnsignedFloat rest
  | cs => parseUnsignedFloat cs

/-- Models Python `float(v)` on a loaded cell: numbers pass through,
strings are parsed. -/
def parseFloat : Val → Option Rat
  | .num q => some q
  | .str s => parseFloatStr s

/-- A loaded table: ordered column names and ordered rows of cells.  The
first column is the time-like column. -/
structure Table where
  cols : List String
  rows : List (List Val)
deriving DecidableEq

/-- Well-formedness invariant a DataFrame always satisfies: every row has
exactly one cell per declared column. -/
def Table.WF (t : Table) : Prop := ∀ r ∈ t.rows, r.length = t.cols.length

instance (t : Table) : Decidable t.WF := by
  unfold Table.WF
  infer_instance

/-- The prefix of a line before its first '#', the whole line if it has
none. -/
def takeUntilHash : List Char → List Char
  | [] => []
  | c :: cs => if c = '#' then [] else c :: takeUntilHash cs

/-- Models the comment handling of `pd.read_csv(file, comment='#')`: the
remainder of a line from the first '#' on is not parsed. -/
def stripLineComment (l : String) : String := String.mk (takeUntilHash l.data)

/-- A CSV cell: numeric literals are parsed, everything else stays a
string. -/
def parseCell (s : String) : Val :=
  match parseFloatStr s with
  | some q => .num q
  | none => .str s

/-- Models `load_csv` (src/app.py lines 5-8), i.e.
`pd.read_csv(file, comment='#')`, on an already line-split input: strip
each line from its first '#', drop lines that are then blank (this covers
both whole-line comments and blank lines), read the first remaining line
as the header and the rest as comma-separated rows. -/
def load_csv_lines (lines : List String) : Table :=
  match (lines.map stripLineComment).filter (fun l => !(trimChars l.data).isEmpty) with
  | [] => ⟨[], []⟩
  | header :: body =>
      ⟨splitStr ',' header, body.map (fun l => (splitStr ',' l).map parseCell)⟩

/-- Models `load_csv` on the raw text of the file. -/
def load_csv (text : String) : Table :=
  load_csv_lines (splitStr '\n' text)

/-- The set difference `raw_labels - shaping_labels` of src/app.py line
19, as a deduplicated list (Python works with `set(columns[1:])`). -/
def extra_raw_labels (raw shaping : Table) : List String :=
  ((raw.cols.drop 1).dedup).filter (fun l => !decide (l ∈ shaping.cols.drop 1))

/-- The set difference `shaping_labels - raw_labels` of src/app.py line
24, as a deduplicated list. -/
def extra_shaping_labels (raw shaping : Table) : List String :=
  ((shaping.cols.drop 1).dedup).filter (fun l => !decide (l ∈ raw.cols.drop 1))

/-- Models `validate_data_labels` (src/app.py lines 10-26): the raw-extra
check is evaluated and raised first; the error carries the labels the
Python message enumerates. -/
def validate_data_labels (raw shaping : Table) : Except PyError Unit :=
  if (extra_raw_labels raw shaping).isEmpty then
    if (extra_shaping_labels raw shaping).isEmpty then .ok ()
    else .error (.valueErrorShapingExtra (extra_shaping_labels raw shaping))
  else .error (.valueErrorRawExtra (extra_raw_labels raw shaping))

/-- Dictionary lookup in an association list.  Column names of a loaded
DataFrame are unique (pandas renames duplicate headers), so first-match
lookup coincides with Python dict lookup. -/
def lookupVal (d : List (String × Val)) (c : String) : Option Val :=
  (d.find? (fun p => p.1 == c)).map (fun p => p.2)

/-- One cell of the transform loop body (src/app.py lines 37-39): a column
present in the scaling dict is mapped to `v * scale + offset`, any other
column passes through unchanged.  String operands give a TypeError; a
scaling key missing from the offset dict would give a KeyError (unreachable
for aligned rows). -/
def transformCell (scaling offset : List (String × Val)) (c : String) (v : Val) :
    Except PyError Val :=
  match lookupVal scaling c with
  | none => .ok v
  | some s =>
    match lookupVal offset c with
    | none => .error .keyError
    | some o =>
      match v, s, o with
      | .num x, .num a, .num b => .ok (.num (x * a + b))
      | _, _, _ => .error .typeError

/-- Error-propagating map over a list, mirroring the columnwise pandas
operations: the first failure aborts. -/
def mapE {α β : Type} (f : α → Except PyError β) : List α → Except PyError (List β)
  | [] => .ok []
  | x :: xs =>
    match f x with
    | .error e => .error e
    | .ok y =>
      match mapE f xs with
      | .error e => .error e
      | .ok ys => .ok (y :: ys)

/-- The in-place update of one row by the time-offset assignment
(src/app.py line 34): the first cell gets `time_offset` added; a string
time cell is a TypeError. -/
def apply_time_offset (t_off : Rat) (r : List Val) : Except PyError (List Val) :=
  match r with
  | [] => .error .indexError
  | v :: rest =>
    match v with
    | .num x => .ok (.num (x + t_off) :: rest)
    | .str _ => .error .typeError

/-- One row of the processed table (src/app.py lines 36-39): the time cell
is copied as-is (the offset was already applied in place), every other
cell is transformed under its own column name. -/
def process_row (scaling offset : List (String × Val)) (cols : List String)
    (r : List Val) : Except PyError (List Val) :=
  match cols, r with
  | _, [] => .ok []
  | [], vs => .ok vs
  | _ :: ctail, v0 :: rest =>
    match mapE (fun p => transformCell scaling offset p.1 p.2) (ctail.zip rest) with
    | .error e => .error e
    | .ok zs => .ok (v0 :: zs)

/-- Models `process_data` (src/app.py lines 28-41).  The scaling and
offset dicts are rows 0 and 1 of the shaping table without the time
column; the raw table's time column is mutated in place before the copy,
so the result pairs the post-call state of the caller's raw table with
the processed table. -/
def process_data (raw shaping : Table) (t_off : Rat) :
    Except PyError (Table × Table) :=
  match shaping.rows.get? 0, shaping.rows.get? 1 with
  | none, _ => .error .indexError
  | _, none => .error .indexError
  | some row0, some row1 =>
    match raw.cols with
    | [] => .error .indexError
    | _ :: _ =>
      match mapE (apply_time_offset t_off) raw.rows with
      | .error e => .error e
      | .ok rows1 =>
        match mapE
            (process_row ((shaping.cols.drop 1).zip (row0.drop 1))
              ((shaping.cols.drop 1).zip (row1.drop 1)) raw.cols) rows1 with
        | .error e => .error e
        | .ok rows2 => .ok (⟨raw.cols, rows1⟩, ⟨raw.cols, rows2⟩)

/-- The scale the Shaping Model assigns to column `c`: the row-0 entry of
the shaping table under `c` (none when absent). -/
def scale_of (shaping : Table) (c : String) : Option Val :=
  match shaping.rows.get? 0 with
  | none => none
  | some row0 => lookupVal ((shaping.cols.drop 1).zip (row0.drop 1)) c

/-- The additive offset the Shaping Model assigns to column `c`: the row-1
entry of the shaping table under `c` (none when absent). -/
def offset_of (shaping : Table) (c : String) : Option Val :=
  match shaping.rows.get? 1 with
  | none => none
  | some row1 => lookupVal ((shaping.cols.drop 1).zip (row1.drop 1)) c

/-- Models the time-offset extraction in main (src/app.py lines 84-85):
`float(shaping_data.iloc[1, 0])`.  A missing row 1 or missing column 0 is
an IndexError; an unparseable cell is the ValueError raised by float(). -/
def extract_time_offset (shaping : Table) : Except PyError Rat :=
  match shaping.rows.get? 1 with
  | none => .error .indexError
  | some row1 =>
    match row1.get? 0 with
    | none => .error .indexError
    | some v =>
      match parseFloat v with
      | none => .error (.valueErrorFloat v)
      | some q => .ok q

/-- Models the pipeline body of main (src/app.py lines 83-91) once both
tables are loaded: extract the time offset, then validate labels, then
process; the first error aborts. -/
def run_pipeline (raw shaping : Table) : Except PyError Table :=
  match extract_time_offset shaping with
  | .error e => .error e
  | .ok t_off =>
    match validate_data_labels raw shaping with
    | .error e => .error e
    | .ok _ =>
      match process_data raw shaping t_off with
      | .error e => .error e
      | .ok pr => .ok pr.2

/-- The cell of table `t` at row `i`, column position `j`. -/
def cellAt (t : Table) (i j : Nat) : Option Val :=
  (t.rows.get? i).bind (fun r => r.get? j)

/-- One graph slot's configuration (src/app.py lines 111-124). -/
structure GraphSpec where
  selectedColumns : List String
  title : String
  yAxisLabel : String
deriving DecidableEq

/-- What one iteration of the per-graph loop emits: a chart via
`plot_data`, or the sidebar warning for an empty selection. -/
inductive RenderOutput where
  | chart (columns : List String) (title : String) (yLabel : String)
  | warning (graphIndex : Nat)
deriving DecidableEq

/-- The per-graph loop of main (src/app.py lines 111-129): graph `i` with
a non-empty selection is plotted, an empty selection only emits a warning
and the loop continues. -/
def render_loop (i : Nat) : List GraphSpec → List RenderOutput
  | [] => []
  | g :: gs =>
      (if g.selectedColumns.isEmpty then RenderOutput.warning i
       else RenderOutput.chart g.selectedColumns g.title g.yAxisLabel)
        :: render_loop (i + 1) gs

/-- A whole session's render pass; Python numbers the graphs from 1. -/
def render_session (specs : List GraphSpec) : List RenderOutput :=
  render_loop 1 specs

/-- Whether a render output is a chart. -/
def RenderOutput.isChart : RenderOutput → Bool
  | .chart _ _ _ => true
  | .warning _ => false

/-- The charts among a session's render outputs. -/
def charts (out : List RenderOutput) : List RenderOutput :=
  out.filter RenderOutput.isChart

/-- Outcome of one submission as main's try/except shapes it. -/
inductive SessionResult where
  | rendered (out : List RenderOutput)
  | errorMessage (e : PyError)
  | exceptionPropagated (e : PyError)
deriving DecidableEq

/-- Models main's try/except (src/app.py lines 79-132): a ValueError is
surfaced with `st.error` as a human-readable message, any other exception
propagates uncaught; on success the graphs are rendered. -/
def main_result (raw shaping : Table) (specs : List GraphSpec) : SessionResult :=
  match run_pipeline raw shaping with
  | .ok _ => .rendered (render_session specs)
  | .error e =>
    if e.isValueError then .errorMessage e else .exceptionPropagated e

/-- The example raw table of the spec: columns (time, V), rows (0, 1.0)
and (1, 2.0). -/
def rawEx : Table := ⟨["time", "V"], [[.num 0, .num 1], [.num 1, .num 2]]⟩

/-- The example shaping table of the spec: columns (time, V), row 0 =
(_, 2.0) (the time cell is ignored), row 1 = (5, 0.5). -/
def shapingEx : Table := ⟨["time", "V"], [[.str "_", .num 2], [.num 5, .num (1/2)]]⟩

/-- The post-call state of the example raw table: the time column has the
offset 5 added in place. -/
def rawExMut : Table := ⟨["time", "V"], [[.num 5, .num 1], [.num 6, .num 2]]⟩

/-- The processed table the spec's example expects: rows (5, 2.5) and
(6, 4.5). -/
def procEx : Table := ⟨["time", "V"], [[.num 5, .num (5/2)], [.num 6, .num (9/2)]]⟩

/-- A raw table whose only channel label A is absent from `shapingAbc`. -/
def rawA : Table := ⟨["time", "A"], [[.num 0, .num 1]]⟩

/-- A shaping table with channel label B and an unparseable time-offset
cell "abc" at row 1, column 0. -/
def shapingAbc : Table :=
  ⟨["time", "B"], [[.num 1, .num 2], [.str "abc", .num 3]]⟩

/-- A shaping table with only one row: `iloc[1, 0]` raises IndexError. -/
def shaping1row : Table := ⟨["time", "V"], [[.num 1, .num 2]]⟩

/-- A raw table with channels A and B. -/
def rawAB : Table := ⟨["time", "A", "B"], [[.num 0, .num 1, .num 2]]⟩

/-- A shaping table with channels B and C: against `rawAB`, both set
differences are non-empty. -/
def shapingBC : Table :=
  ⟨["time", "B", "C"], [[.num 1, .num 2, .num 3], [.num 4, .num 5, .num 6]]⟩

/-- The example shaping table with a third row appended; the extra row
must not affect the pipeline. -/
def shapingEx3 : Table :=
  ⟨["time", "V"],
   [[.str "_", .num 2], [.num 5, .num (1/2)], [.num 7, .num 9]]⟩

/-- A three-graph session in which exactly the second graph has an empty
column selection. -/
def demoSpecs : List GraphSpec :=
  [⟨["V"], "Graph 1", "Voltage[V]"⟩,
   ⟨[], "Graph 2", "Current[A]"⟩,
   ⟨["V"], "Graph 3", "Speed[rpm]"⟩]

section

attribute [local semireducible] Rat.add Rat.mul Rat.sub Rat.inv Rat.ofScientific

/-- A successful `mapE` preserves the list length. -/
theorem mapE_ok_length {α β : Type} (f : α → Except PyError β) :
    ∀ (xs : List α) (ys : List β), mapE f xs = .ok ys → ys.length = xs.length := by
  intro xs
  induction xs with
  | nil =>
    intro ys h
    simp only [mapE, Except.ok.injEq] at h
    subst h
    rfl
  | cons a as ih =>
    intro ys h
    simp only [mapE] at h
    cases hfa : f a with
    | error e => rw [hfa] at h; exact absurd h (by simp)
    | ok y =>
      rw [hfa] at h
      cases hm : mapE f as with
      | error e => rw [hm] at h; exact absurd h (by simp)
      | ok ys1 =>
        rw [hm] at h
        simp only [Except.ok.injEq] at h
        subst h
        simp [ih ys1 hm]

/-- A successful `mapE` maps each input position to the output position
through `f`. -/
theorem mapE_ok_get {α β : Type} (f : α → Except PyError β) :
    ∀ (xs : List α) (ys : List β) (i : Nat) (x : α),
      mapE f xs = .ok ys → xs.get? i = some x →
      ∃ y, ys.get? i = some y ∧ f x = .ok y := by
  intro xs
  induction xs with
  | nil => intro ys i x h hx; simp at hx
  | cons a as ih =>
    intro ys i x h hx
    simp only [mapE] at h
    cases hfa : f a with
    | error e => rw [hfa] at h; exact absurd h (by simp)
    | ok y =>
      rw [hfa] at h
      cases hm : mapE f as with
      | error e => rw [hm] at h; exact absurd h (by simp)
      | ok ys1 =>
        rw [hm] at h
        simp only [Except.ok.injEq] at h
        subst h
        cases i with
        | zero =>
          simp only [List.get?_cons_zero, Option.some.injEq] at hx
          subst hx
          exact ⟨y, rfl, hfa⟩
        | succ n =>
          simp only [List.get?_cons_succ] at hx ⊢
          exact ih ys1 n x hm hx

/-- Positionwise description of `List.zip`. -/
theorem zip_get?_both {α β : Type} :
    ∀ (as : List α) (bs : List β) (i : Nat) (a : α) (b : β),
      as.get? i = some a → bs.get? i = some b →
      (as.zip bs).get? i = some (a, b) := by
  intro as
  induction as with
  | nil => intro bs i a b ha; simp at ha
  | cons x xs ih =>
    intro bs i a b ha hb
    cases bs with
    | nil => simp at hb
    | cons y ys =>
      cases i with
      | zero =>
        simp only [List.get?_cons_zero, Option.some.injEq] at ha hb
        subst ha; subst hb
        rfl
      | succ n =>
        simp only [List.get?_cons_succ] at ha hb
        simpa using ih ys n a b ha hb

/-- A key present in `ks` is found by `lookupVal` in the zip of `ks` with
any value list at least as long. -/
theorem lookupVal_zip_covers :
    ∀ (ks : List String) (vs : List Val) (c : String),
      c ∈ ks → ks.length ≤ vs.length →
      ∃ v, lookupVal (ks.zip vs) c = some v := by
  intro ks
  induction ks with
  | nil => intro vs c hc; simp at hc
  | cons k ks ih =>
    intro vs c hc hlen
    cases vs with
    | nil => simp at hlen
    | cons v vs =>
      by_cases hk : k = c
      · subst hk
        exact ⟨v, by simp [lookupVal]⟩
      · have hc' : c ∈ ks := by
          cases List.mem_cons.mp hc with
          | inl h => exact absurd h.symm hk
          | inr h => exact h
        obtain ⟨w, hw⟩ := ih vs c hc' (by simpa using Nat.le_of_succ_le_succ hlen)
        refine ⟨w, ?_⟩
        simp only [lookupVal, List.zip_cons_cons, List.find?]
        rw [show (((k, v) : String × Val).1 == c) = false by simpa using hk]
        exact hw

/-- A successful `transformCell` on a column present in the scaling dict
is exactly the linear map applied to a numeric cell. -/
theorem transformCell_ok_num (scaling offset : List (String × Val)) (c : String)
    (v y s : Val) (hs : lookupVal scaling c = some s)
    (h : transformCell scaling offset c v = .ok y) :
    ∃ (x a b : Rat), v = .num x ∧ s = .num a ∧
      lookupVal offset c = some (.num b) ∧ y = .num (x * a + b) := by
  simp only [transformCell, hs] at h
  split at h
  · exact absurd h (by simp)
  · rename_i o ho
    cases v with
    | str sv => exact absurd h (by cases s <;> cases o <;> simp)
    | num x =>
      cases s with
      | str ss => exact absurd h (by cases o <;> simp)
      | num a =>
        cases o with
        | str so => exact absurd h (by simp)
        | num b =>
          simp only [Except.ok.injEq] at h
          exact ⟨x, a, b, rfl, rfl, ho, h.symm⟩

/-- A successful in-place time-offset update shifts a numeric head and
keeps the tail. -/
theorem apply_time_offset_ok (t : Rat) (r r' : List Val)
    (h : apply_time_offset t r = .ok r') :
    ∃ (x : Rat) (rest : List Val), r = .num x :: rest ∧
      r' = .num (x + t) :: rest := by
  cases r with
  | nil => exact absurd h (by simp [apply_time_offset])
  | cons v rest =>
    cases v with
    | num x =>
      simp only [apply_time_offset, Except.ok.injEq] at h
      exact ⟨x, rest, rfl, h.symm⟩
    | str s => exact absurd h (by simp [apply_time_offset])

/-- A successful `process_row` on a non-empty column list keeps the head
cell and maps the tail through `transformCell`. -/
theorem process_row_cons_ok (scaling offset : List (String × Val)) (c0 : String)
    (ctail : List String) (v0 : Val) (rest r' : List Val)
    (h : process_row scaling offset (c0 :: ctail) (v0 :: rest) = .ok r') :
    ∃ zs, mapE (fun p => transformCell scaling offset p.1 p.2) (ctail.zip rest) = .ok zs ∧
      r' = v0 :: zs := by
  simp only [process_row] at h
  split at h
  · exact absurd h (by simp)
  · rename_i zs hm
    simp only [Except.ok.injEq] at h
    exact ⟨zs, hm, h.symm⟩

/-- Structure of a successful `process_data` call: the shaping table
supplied rows 0 and 1, the raw table had a column, the time column was
updated in place (`rows1`), and the transform produced `rows2`. -/
theorem process_data_ok_destruct (raw shaping : Table) (t_off : Rat)
    (raw' proc : Table)
    (hok : process_data raw shaping t_off = .ok (raw', proc)) :
    ∃ row0 row1 rows1 rows2,
      shaping.rows.get? 0 = some row0 ∧
      shaping.rows.get? 1 = some row1 ∧
      raw.cols ≠ [] ∧
      mapE (apply_time_offset t_off) raw.rows = .ok rows1 ∧
      mapE (process_row ((shaping.cols.drop 1).zip (row0.drop 1))
        ((shaping.cols.drop 1).zip (row1.drop 1)) raw.cols) rows1 = .ok rows2 ∧
      raw' = ⟨raw.cols, rows1⟩ ∧ proc = ⟨raw.cols, rows2⟩ := by
  simp only [process_data] at hok
  split at hok
  · exact absurd hok (by simp)
  · exact absurd hok (by simp)
  · rename_i row0 row1 heq0 heq1
    split at hok
    · exact absurd hok (by simp)
    · rename_i c0 ctail hcols
      split at hok
      · exact absurd hok (by simp)
      · rename_i rows1 hm1
        split at hok
        · exact absurd hok (by simp)
        · rename_i rows2 hm2
          simp only [Except.ok.injEq, Prod.mk.injEq] at hok
          exact ⟨row0, row1, rows1, rows2, heq0, heq1, by rw [hcols]; simp, hm1, hm2,
            hok.1.symm, hok.2.symm⟩

/-- C7: on the spec's example input (raw = time,V; 0,1.0; 1,2.0 and
shaping = time,V; _,2.0; 5,0.5) the pipeline extracts timeOffset 5,
scale[V] = 2.0, offset[V] = 0.5, and produces the processed table with
rows (5, 2.5) and (6, 4.5). -/
theorem end_to_end_example :
    extract_time_offset shapingEx = .ok 5 ∧
    scale_of shapingEx "V" = some (.num 2) ∧
    offset_of shapingEx "V" = some (.num (1/2)) ∧
    run_pipeline rawEx shapingEx = .ok procEx := by decide

/-- C2 counterexample: the transform does not leave the caller's raw
table unchanged — on the spec's own example the post-call raw table
differs from the input raw table (its time column was shifted in
place). -/
theorem transform_mutates_raw_counterexample :
    process_data rawEx shapingEx 5 = .ok (rawExMut, procEx) ∧ rawExMut ≠ rawEx := by
  decide

/-- C2 amended: a successful transform returns a fresh processed table,
keeps every non-time column of the caller's raw table unchanged, but
mutates the caller's time column in place, adding the time offset to
every entry. -/
theorem transform_mutation_behavior (raw shaping : Table) (t_off : Rat)
    (raw' proc : Table)
    (hok : process_data raw shaping t_off = .ok (raw', proc)) :
    raw'.cols = raw.cols ∧ raw'.rows.length = raw.rows.length ∧
    ∀ i r, raw.rows.get? i = some r →
      ∃ x : Rat, r.get? 0 = some (.num x) ∧
        raw'.rows.get? i = some (.num (x + t_off) :: r.drop 1) := by
  obtain ⟨row0, row1, rows1, rows2, h0, h1, hc, hm1, hm2, hraw, hproc⟩ :=
    process_data_ok_destruct raw shaping t_off raw' proc hok
  subst hraw
  refine ⟨rfl, mapE_ok_length _ _ _ hm1, ?_⟩
  intro i r hr
  obtain ⟨r1, hr1, hap⟩ := mapE_ok_get _ _ _ i r hm1 hr
  obtain ⟨x, rest, hre, hr1e⟩ := apply_time_offset_ok t_off r r1 hap
  subst hre
  refine ⟨x, rfl, ?_⟩
  show rows1.get? i = _
  rw [hr1, hr1e]
  simp

/-- C2 witness: the amended mutation description evaluated on the spec's
example at row 0. -/
theorem transform_mutation_behavior_witness :
    rawExMut.cols = rawEx.cols ∧ rawExMut.rows.length = rawEx.rows.length ∧
    ∃ x : Rat, ([Val.num 0, Val.num 1] : List Val).get? 0 = some (.num x) ∧
      rawExMut.rows.get? 0 = some (.num (x + 5) :: ([Val.num 0, Val.num 1] : List Val).drop 1) := by
  have h := transform_mutation_behavior rawEx shapingEx 5 rawExMut procEx (by decide)
  exact ⟨h.1, h.2.1, h.2.2 0 [Val.num 0, Val.num 1] (by decide)⟩

/-- C3 counterexample: on a pair whose label sets differ but whose
shaping time-offset cell is the unparseable string "abc", the pipeline
reports the float conversion error, not the label-mismatch error. -/
theorem float_error_precedes_label_check_counterexample :
    validate_data_labels rawA shapingAbc = .error (.valueErrorRawExtra ["A"]) ∧
    run_pipeline rawA shapingAbc = .error (.valueErrorFloat (.str "abc")) ∧
    PyError.isLabelMismatch (.valueErrorFloat (.str "abc")) = false := by decide

/-- C3 amended: the time-offset extraction runs before the Label
Validator, so the label-mismatch error is the reported error only once
extraction has succeeded; under that condition any validation failure is
the pipeline's reported error and is a label-mismatch error. -/
theorem label_mismatch_reported_after_extraction (raw shaping : Table) (q : Rat)
    (e : PyError) (hex : extract_time_offset shaping = .ok q)
    (hval : validate_data_labels raw shaping = .error e) :
    run_pipeline raw shaping = .error e ∧ e.isLabelMismatch = true := by
  constructor
  · simp only [run_pipeline, hex, hval]
  · unfold validate_data_labels at hval
    split at hval
    · split at hval
      · exact absurd hval (by simp)
      · simp only [Except.error.injEq] at hval
        subst hval
        rfl
    · simp only [Except.error.injEq] at hval
      subst hval
      rfl

/-- C3 witness: with a parseable offset cell and mismatched labels the
reported error is the raw-extra label mismatch. -/
theorem label_mismatch_after_extraction_witness :
    run_pipeline rawAB shapingBC = .error (.valueErrorRawExtra ["A"]) ∧
    PyError.isLabelMismatch (.valueErrorRawExtra ["A"]) = true :=
  label_mismatch_reported_after_extraction rawAB shapingBC 4
    (.valueErrorRawExtra ["A"]) (by decide) (by decide)

/-- C4: whenever the raw table has a non-time label absent from the
shaping table, validation fails with the raw-extra error, whose label
list holds exactly the set difference; the shaping-extra error is never
the one reported. -/
theorem raw_extra_precedence (raw shaping : Table) (c : String)
    (hc : c ∈ raw.cols.drop 1) (hnc : c ∉ shaping.cols.drop 1) :
    ∃ ls, validate_data_labels raw shaping = .error (.valueErrorRawExtra ls) ∧
      ∀ l, l ∈ ls ↔ (l ∈ raw.cols.drop 1 ∧ l ∉ shaping.cols.drop 1) := by
  have hmem : ∀ l, l ∈ extra_raw_labels raw shaping ↔
      (l ∈ raw.cols.drop 1 ∧ l ∉ shaping.cols.drop 1) := by
    intro l
    simp [extra_raw_labels, List.mem_filter, List.mem_dedup]
  have hne : (extra_raw_labels raw shaping).isEmpty = false := by
    rw [List.isEmpty_eq_false]
    intro hemp
    have h2 := (hmem c).2 ⟨hc, hnc⟩
    rw [hemp] at h2
    simp at h2
  refine ⟨extra_raw_labels raw shaping, ?_, hmem⟩
  simp [validate_data_labels, hne]

/-- C4 witness: raw channels A,B against shaping channels B,C — both set
differences are non-empty, the raw-extra error is the one raised and A
is in its label list. -/
theorem raw_extra_precedence_witness :
    ∃ ls, validate_data_labels rawAB shapingBC = .error (.valueErrorRawExtra ls) ∧
      ("A" ∈ ls ↔ ("A" ∈ rawAB.cols.drop 1 ∧ "A" ∉ shapingBC.cols.drop 1)) := by
  obtain ⟨ls, h1, h2⟩ := raw_extra_precedence rawAB shapingBC "A" (by decide) (by decide)
  exact ⟨ls, h1, h2 "A"⟩

/-- C5 counterexample: a shaping table with a single row makes the
pipeline fail with an index error, which is not a ValueError and hence
is not surfaced as a human-readable message — it propagates out of
main's try/except. -/
theorem one_row_shaping_uncaught_counterexample :
    extract_time_offset shaping1row = .error .indexError ∧
    PyError.isValueError .indexError = false ∧
    main_result rawEx shaping1row [] = .exceptionPropagated .indexError := by decide

/-- C5 amended: extraction fails exactly when the shaping table has
fewer than 2 rows (an uncaught index error, not surfaced as a message)
or when cell (row 1, col 0) is not parseable as a float (a ValueError
that is surfaced as a message); on a parseable cell it succeeds. -/
theorem extraction_failure_modes (shaping : Table) :
    (shaping.rows.length < 2 →
      extract_time_offset shaping = .error .indexError ∧
      PyError.isValueError .indexError = false) ∧
    (∀ row1, shaping.rows.get? 1 = some row1 → ∀ v, row1.get? 0 = some v →
      (parseFloat v = none →
        extract_time_offset shaping = .error (.valueErrorFloat v) ∧
        PyError.isValueError (.valueErrorFloat v) = true) ∧
      ∀ q, parseFloat v = some q → extract_time_offset shaping = .ok q) := by
  constructor
  · intro hlt
    have hnone : shaping.rows.get? 1 = none := by
      rw [List.get?_eq_getElem?]
      exact List.getElem?_eq_none (by omega)
    exact ⟨by simp only [extract_time_offset, hnone], rfl⟩
  · intro row1 h1 v hv
    constructor
    · intro hp
      exact ⟨by simp only [extract_time_offset, h1, hv, hp], rfl⟩
    · intro q hq
      simp only [extract_time_offset, h1, hv, hq]

/-- C5 witness: the two failure modes evaluated on concrete shaping
tables — one row (index error), and an "abc" offset cell (surfaced
ValueError). -/
theorem extraction_failure_modes_witness :
    (extract_time_offset shaping1row = .error .indexError ∧
      PyError.isValueError .indexError = false) ∧
    (extract_time_offset shapingAbc = .error (.valueErrorFloat (.str "abc")) ∧
      PyError.isValueError (.valueErrorFloat (.str "abc")) = true) :=
  ⟨(extraction_failure_modes shaping1row).1 (by decide),
   ((extraction_failure_modes shapingAbc).2 [.str "abc", .num 3] (by decide)
     (.str "abc") (by decide)).1 (by decide)⟩

/-- C6: when the non-time label sets of the raw and shaping tables are
identical, the Label Validator succeeds without raising. -/
theorem matching_labels_validate_ok (raw shaping : Table)
    (h1 : ∀ c ∈ raw.cols.drop 1, c ∈ shaping.cols.drop 1)
    (h2 : ∀ c ∈ shaping.cols.drop 1, c ∈ raw.cols.drop 1) :
    validate_data_labels raw shaping = .ok () := by
  have e1 : extra_raw_labels raw shaping = [] := by
    simp only [extra_raw_labels, List.filter_eq_nil_iff]
    intro a ha
    simp only [List.mem_dedup] at ha
    simpa using h1 a ha
  have e2 : extra_shaping_labels raw shaping = [] := by
    simp only [extra_shaping_labels, List.filter_eq_nil_iff]
    intro a ha
    simp only [List.mem_dedup] at ha
    simpa using h2 a ha
  simp [validate_data_labels, e1, e2]

/-- C1: successful transform output is linear. -/
theorem transform_is_linear (raw shaping : Table) (t_off : Rat) (raw' proc : Table)
    (hok : process_data raw shaping t_off = .ok (raw', proc))
    (hwr : Table.WF raw) (hws : Table.WF shaping)
    (hval : ∀ c ∈ raw.cols.drop 1, c ∈ shaping.cols.drop 1)
    (i j : Nat) (hi : i < raw.rows.length) (hj : j < raw.cols.length) :
    (j = 0 → ∃ x : Rat, cellAt raw i 0 = some (.num x) ∧
        cellAt proc i 0 = some (.num (x + t_off))) ∧
    (0 < j → ∃ (x a b : Rat) (c : String), raw.cols.get? j = some c ∧
        cellAt raw i j = some (.num x) ∧
        scale_of shaping c = some (.num a) ∧
        offset_of shaping c = some (.num b) ∧
        cellAt proc i j = some (.num (x * a + b))) := by
  obtain ⟨row0, row1, rows1, rows2, h0, h1, hcne, hm1, hm2, hraw, hproc⟩ :=
    process_data_ok_destruct raw shaping t_off raw' proc hok
  subst hproc
  have hr : raw.rows.get? i = some (raw.rows.get ⟨i, hi⟩) := List.get?_eq_get hi
  obtain ⟨r1, hr1, hap⟩ := mapE_ok_get _ _ _ i _ hm1 hr
  obtain ⟨x, rest, hre, hr1e⟩ := apply_time_offset_ok t_off _ r1 hap
  subst hr1e
  obtain ⟨r2, hr2, hpr⟩ := mapE_ok_get _ _ _ i _ hm2 hr1
  cases hcols : raw.cols with
  | nil => exact absurd hcols hcne
  | cons c0 ctail =>
    rw [hcols] at hpr
    obtain ⟨zs, hzs, hr2e⟩ := process_row_cons_ok _ _ c0 ctail _ rest r2 hpr
    subst hr2e
    have hrlen : (raw.rows.get ⟨i, hi⟩).length = raw.cols.length :=
      hwr _ (List.get?_mem hr)
    have hrestlen : rest.length = ctail.length := by
      rw [hre, hcols] at hrlen
      simpa using hrlen
    constructor
    · intro hj0
      refine ⟨x, ?_, ?_⟩
      · show (raw.rows.get? i).bind (fun r => r.get? 0) = _
        rw [hr, hre]
        rfl
      · show (rows2.get? i).bind (fun r => r.get? 0) = _
        rw [hr2]
        rfl
    · intro hjpos
      obtain ⟨k, rfl⟩ : ∃ k, j = k + 1 := ⟨j - 1, by omega⟩
      have hk : k < ctail.length := by
        rw [hcols] at hj
        simpa using Nat.lt_of_succ_lt_succ hj
      have hkrest : k < rest.length := by rw [hrestlen]; exact hk
      have hvk : rest.get? k = some (rest.get ⟨k, hkrest⟩) := List.get?_eq_get hkrest
      have hck : ctail.get? k = some (ctail.get ⟨k, hk⟩) := List.get?_eq_get hk
      have hzip : (ctail.zip rest).get? k = some (ctail.get ⟨k, hk⟩, rest.get ⟨k, hkrest⟩) :=
        zip_get?_both ctail rest k _ _ hck hvk
      obtain ⟨y, hy, hty⟩ := mapE_ok_get _ _ _ k _ hzs hzip
      have hcmem : ctail.get ⟨k, hk⟩ ∈ shaping.cols.drop 1 := by
        apply hval
        rw [hcols]
        simp
      have hrow0len : row0.length = shaping.cols.length := hws _ (List.get?_mem h0)
      obtain ⟨s, hs⟩ := lookupVal_zip_covers (shaping.cols.drop 1) (row0.drop 1)
        (ctail.get ⟨k, hk⟩) hcmem (by simp [hrow0len])
      obtain ⟨xv, a, b, hvnum, hsnum, hob, hynum⟩ :=
        transformCell_ok_num _ _ _ _ y s hs hty
      have hvnum2 : rest.get ⟨k, hkrest⟩ = Val.num xv := hvnum
      refine ⟨xv, a, b, ctail.get ⟨k, hk⟩, ?_, ?_, ?_, ?_, ?_⟩
      · simp
      · show (raw.rows.get? i).bind (fun r => r.get? (k + 1)) = _
        rw [hr, hre]
        show rest.get? k = _
        rw [hvk, hvnum2]
      · simp only [scale_of, h0]
        rw [hs, hsnum]
      · simp only [offset_of, h1]
        exact hob
      · show (rows2.get? i).bind (fun r => r.get? (k + 1)) = _
        rw [hr2]
        show zs.get? k = _
        rw [hy, hynum]

/-- C1 witness: linearity evaluated on the spec's example at row 0,
column V. -/
theorem transform_is_linear_witness :
    ∃ (x a b : Rat) (c : String), rawEx.cols.get? 1 = some c ∧
      cellAt rawEx 0 1 = some (.num x) ∧
      scale_of shapingEx c = some (.num a) ∧
      offset_of shapingEx c = some (.num b) ∧
      cellAt procEx 0 1 = some (.num (x * a + b)) :=
  (transform_is_linear rawEx shapingEx 5 rawExMut procEx (by decide) (by decide)
    (by decide) (by decide) 0 1 (by decide) (by decide)).2 (by decide)

/-- The render loop positionwise: slot `i` yields a warning for an empty
selection and a chart otherwise, numbered from `n`. -/
theorem render_loop_get? :
    ∀ (specs : List GraphSpec) (n i : Nat),
      (render_loop n specs).get? i = (specs.get? i).map (fun g =>
        if g.selectedColumns.isEmpty then RenderOutput.warning (n + i)
        else RenderOutput.chart g.selectedColumns g.title g.yAxisLabel) := by
  intro specs
  induction specs with
  | nil => intro n i; simp [render_loop]
  | cons g gs ih =>
    intro n i
    cases i with
    | zero => simp [render_loop]
    | succ k =>
      simp only [render_loop, List.get?_cons_succ, ih (n + 1) k]
      simp only [show n + 1 + k = n + (k + 1) from by omega]

/-- The render loop emits one output per graph slot. -/
theorem render_loop_length :
    ∀ (specs : List GraphSpec) (n : Nat),
      (render_loop n specs).length = specs.length := by
  intro specs
  induction specs with
  | nil => intro n; rfl
  | cons g gs ih => intro n; simp [render_loop, ih (n + 1)]

/-- The number of charts a session emits is the number of graph slots
with a non-empty selection. -/
theorem charts_render_loop_length :
    ∀ (specs : List GraphSpec) (n : Nat),
      (charts (render_loop n specs)).length =
        (specs.filter (fun g => !g.selectedColumns.isEmpty)).length := by
  intro specs
  induction specs with
  | nil => intro n; rfl
  | cons g gs ih =>
    intro n
    cases hg : g.selectedColumns.isEmpty with
    | false =>
      simp only [render_loop, charts, List.filter_cons, hg]
      simp [RenderOutput.isChart, charts] at ih ⊢
      simp [ih (n + 1)]
    | true =>
      simp only [render_loop, charts, List.filter_cons, hg]
      simp [RenderOutput.isChart, charts] at ih ⊢
      simp [ih (n + 1)]

/-- C8: a graph slot with an empty column selection produces a warning
instead of a chart, the session still emits one output per slot, the
chart count equals the number of non-empty slots, and every non-empty
slot still renders its chart. -/
theorem empty_selection_soft_warning (specs : List GraphSpec) (i : Nat)
    (hi : i < specs.length) (he : (specs.get ⟨i, hi⟩).selectedColumns = []) :
    (render_session specs).get? i = some (.warning (i + 1)) ∧
    (render_session specs).length = specs.length ∧
    (charts (render_session specs)).length =
      (specs.filter (fun g => !g.selectedColumns.isEmpty)).length ∧
    ∀ j (hj : j < specs.length), (specs.get ⟨j, hj⟩).selectedColumns ≠ [] →
      (render_session specs).get? j = some (.chart (specs.get ⟨j, hj⟩).selectedColumns
        (specs.get ⟨j, hj⟩).title (specs.get ⟨j, hj⟩).yAxisLabel) := by
  refine ⟨?_, render_loop_length specs 1, charts_render_loop_length specs 1, ?_⟩
  · have he2 : specs[i].selectedColumns = [] := he
    rw [render_session, render_loop_get? specs 1 i, List.get?_eq_get hi]
    simp [he2, Nat.add_comm]
  · intro j hj hne
    have hne2 : ¬ specs[j].selectedColumns = [] := hne
    rw [render_session, render_loop_get? specs 1 j, List.get?_eq_get hj]
    simp [hne2]

/-- C8 witness: a three-graph session with exactly one empty selection
emits a warning for slot 2, three outputs, exactly two charts, and
renders slot 1's chart. -/
theorem empty_selection_soft_warning_witness :
    (render_session demoSpecs).get? 1 = some (.warning 2) ∧
    (render_session demoSpecs).length = demoSpecs.length ∧
    (charts (render_session demoSpecs)).length =
      (demoSpecs.filter (fun g => !g.selectedColumns.isEmpty)).length ∧
    (render_session demoSpecs).get? 0 = some (.chart ["V"] "Graph 1" "Voltage[V]") := by
  have h := empty_selection_soft_warning demoSpecs 1 (by decide) (by decide)
  exact ⟨h.1, h.2.1, h.2.2.1, h.2.2.2 0 (by decide) (by decide)⟩

/-- Everything from the first '#' on is discarded by the comment
stripper, wherever the '#' occurs. -/
theorem takeUntilHash_append_hash :
    ∀ (xs ys : List Char), takeUntilHash (xs ++ '#' :: ys) = takeUntilHash xs := by
  intro xs ys
  induction xs with
  | nil => simp [takeUntilHash]
  | cons c cs ih =>
    by_cases hc : c = '#'
    · simp [takeUntilHash, hc]
    · simp [takeUntilHash, hc, ih]

/-- C9: the loader treats the comment marker position-independently —
a line with data before a '#' is parsed as if the line ended before the
'#', and a line beginning with '#' is dropped entirely. -/
theorem comment_marker_position_independent (a b : List String) (pre : String)
    (junk : List Char) (hpre : '#' ∉ pre.data) :
    load_csv_lines (a ++ String.mk (pre.data ++ '#' :: junk) :: b) =
      load_csv_lines (a ++ pre :: b) ∧
    load_csv_lines (a ++ String.mk ('#' :: junk) :: b) = load_csv_lines (a ++ b) := by
  have hstrip : stripLineComment (String.mk (pre.data ++ '#' :: junk)) =
      stripLineComment pre := by
    simp [stripLineComment, takeUntilHash_append_hash]
  constructor
  · have key1 : ((a ++ String.mk (pre.data ++ '#' :: junk) :: b).map stripLineComment).filter
        (fun l => !(trimChars l.data).isEmpty) =
        ((a ++ pre :: b).map stripLineComment).filter
        (fun l => !(trimChars l.data).isEmpty) := by
      rw [List.map_append, List.map_append, List.map_cons, List.map_cons, hstrip]
    unfold load_csv_lines
    rw [key1]
  · have h2 : stripLineComment (String.mk ('#' :: junk)) = String.mk [] := by
      simp [stripLineComment, takeUntilHash]
    have key2 : ((a ++ String.mk ('#' :: junk) :: b).map stripLineComment).filter
        (fun l => !(trimChars l.data).isEmpty) =
        ((a ++ b).map stripLineComment).filter
        (fun l => !(trimChars l.data).isEmpty) := by
      rw [List.map_append, List.map_append, List.map_cons, h2, List.filter_append,
        List.filter_append, List.filter_cons]
      simp [trimChars]
    unfold load_csv_lines
    rw [key2]

/-- C9 witness: a mid-line comment is stripped and a whole-line comment
is skipped on a concrete three-line file. -/
theorem comment_marker_witness :
    load_csv_lines ["time,V", String.mk ("0,1.0".data ++ '#' :: " note".data), "1,2.0"] =
      load_csv_lines ["time,V", "0,1.0", "1,2.0"] ∧
    load_csv_lines ["time,V", String.mk ('#' :: " note".data), "1,2.0"] =
      load_csv_lines ["time,V", "1,2.0"] :=
  comment_marker_position_independent ["time,V"] ["1,2.0"] "0,1.0" (" note".data)
    (by decide)

/-- Time-offset extraction depends only on row 1 of the shaping table. -/
theorem extract_time_offset_congr (s1 s2 : Table)
    (h : s1.rows.get? 1 = s2.rows.get? 1) :
    extract_time_offset s1 = extract_time_offset s2 := by
  unfold extract_time_offset
  rw [h]

/-- The transform depends on the shaping table only through its column
names and rows 0 and 1. -/
theorem process_data_congr (raw s1 s2 : Table) (t : Rat)
    (hc : s1.cols = s2.cols)
    (h0 : s1.rows.get? 0 = s2.rows.get? 0)
    (h1 : s1.rows.get? 1 = s2.rows.get? 1) :
    process_data raw s1 t = process_data raw s2 t := by
  unfold process_data
  rw [hc, h0, h1]

/-- C10: shaping rows beyond index 1 have no effect — with at least two
rows the whole pipeline behaves exactly as on the table truncated to its
first two rows. -/
theorem extra_shaping_rows_ignored (raw shaping : Table)
    (h2 : 2 ≤ shaping.rows.length) :
    extract_time_offset shaping =
      extract_time_offset ⟨shaping.cols, shaping.rows.take 2⟩ ∧
    run_pipeline raw shaping =
      run_pipeline raw ⟨shaping.cols, shaping.rows.take 2⟩ := by
  have hg0 : (shaping.rows.take 2).get? 0 = shaping.rows.get? 0 :=
    List.get?_take (by omega)
  have hg1 : (shaping.rows.take 2).get? 1 = shaping.rows.get? 1 :=
    List.get?_take (by omega)
  have hex2 : extract_time_offset ⟨shaping.cols, shaping.rows.take 2⟩ =
      extract_time_offset shaping :=
    extract_time_offset_congr _ _ hg1
  have hpd : ∀ t, process_data raw ⟨shaping.cols, shaping.rows.take 2⟩ t =
      process_data raw shaping t :=
    fun t => process_data_congr raw _ _ t rfl hg0 hg1
  have hvv : validate_data_labels raw ⟨shaping.cols, shaping.rows.take 2⟩ =
      validate_data_labels raw shaping := rfl
  refine ⟨hex2.symm, ?_⟩
  unfold run_pipeline
  simp only [hex2, hvv, hpd]

/-- C10 witness: on the example shaping table with a third row appended,
extraction and the pipeline agree with the two-row truncation. -/
theorem extra_shaping_rows_ignored_witness :
    extract_time_offset shapingEx3 =
      extract_time_offset ⟨shapingEx3.cols, shapingEx3.rows.take 2⟩ ∧
    run_pipeline rawEx shapingEx3 =
      run_pipeline rawEx ⟨shapingEx3.cols, shapingEx3.rows.take 2⟩ :=
  extra_shaping_rows_ignored rawEx shapingEx3 (by decide)

/-- C6 witness: the validator accepts the spec's example pair. -/
theorem matching_labels_validate_ok_witness :
    validate_data_labels rawEx shapingEx = .ok () :=
  matching_labels_validate_ok rawEx shapingEx (by decide) (by decide)

end

end MotorApp
